import Mathlib

/-
Verification development for the multi-provider persona pipeline.

Shallow embedding conventions:
- Go strings are modelled as `String` where only whole-string operations occur
  (provider contents, prompts, map keys) and as `List Char` where the code
  indexes or slices into the string (fingerprinting, name parsing, body
  extraction).  Go byte indexing is modelled as character indexing.
- Go maps from string keys are modelled as functions `String → Option _`; the
  flat-file load/save round trip of the PR tracker is identity on this state,
  so the tracker operations act directly on the map.
- External collaborators (the four LLM clients, the GitHub status query) are
  parameters: a provider call is a function returning `content × Option error`
  (`none` = nil error), the GitHub client is `Option (prNumber → Option status)`
  (`none` outer = client without status support, `none` inner = status query
  error).
- The fan-out uses one goroutine per provider, all sending exactly one
  response into one buffered channel which is drained after the join.  The
  nondeterministic completion order is modelled by an explicit `arrival` list
  of provider indices; a real execution corresponds to an `arrival` that is a
  permutation of the registration order.
-/

/- ===== Generic string helpers (Go strings and unicode packages) ===== -/

/-- Whitespace per the Go `unicode.IsSpace` predicate on Latin-1 code points,
used by `strings.TrimSpace` and the regex class `\s`. -/
def isGoSpace (c : Char) : Bool :=
  c = ' ' || c = '\t' || c = '\n' || c = Char.ofNat 11 || c = Char.ofNat 12 ||
  c = '\r' || c = Char.ofNat 0x85 || c = Char.ofNat 0xA0

/-- Model of Go `strings.TrimSpace`. -/
def trimSpace (s : List Char) : List Char :=
  ((s.dropWhile isGoSpace).reverse.dropWhile isGoSpace).reverse

/-- Index of the first occurrence of `pat` in `s` (Go `strings.Index`; `none`
models the -1 result). -/
def strIndex (pat : List Char) : List Char → Option Nat
  | [] => if pat.isPrefixOf ([] : List Char) then some 0 else none
  | c :: t =>
    if pat.isPrefixOf (c :: t) then some 0
    else (strIndex pat t).map (· + 1)

/-- Index of the last occurrence of `pat` in `s` (Go `strings.LastIndex`). -/
def strLastIndex (pat : List Char) : List Char → Option Nat
  | [] => if pat.isPrefixOf ([] : List Char) then some 0 else none
  | c :: t =>
    match strLastIndex pat t with
    | some i => some (i + 1)
    | none => if pat.isPrefixOf (c :: t) then some 0 else none

/-- Model of Go `strings.Replace(s, pat, rep, 1)`: replace the first
occurrence only.  (The code only calls it with a nonempty `pat`.) -/
def replaceOneL (pat rep : List Char) : List Char → List Char
  | [] => []
  | c :: t =>
    if pat.isPrefixOf (c :: t) then rep ++ (c :: t).drop pat.length
    else c :: replaceOneL pat rep t

/-- Model of Go `strings.ReplaceAll` for a nonempty pattern. -/
def replaceAllL (pat rep : List Char) : List Char → List Char
  | [] => []
  | c :: t =>
    if h : pat ≠ [] ∧ pat.isPrefixOf (c :: t) then
      rep ++ replaceAllL pat rep ((c :: t).drop pat.length)
    else
      c :: replaceAllL pat rep t
termination_by s => s.length
decreasing_by
  · have hl : 1 ≤ pat.length := by
      cases hp : pat with
      | nil => exact absurd hp h.1
      | cons x xs => simp
    simp only [List.length_drop, List.length_cons]
    omega
  · simp

def replaceOne (s pat rep : String) : String :=
  ⟨replaceOneL pat.data rep.data s.data⟩

def replaceAll (s pat rep : String) : String :=
  ⟨replaceAllL pat.data rep.data s.data⟩

/- ===== Decimal rendering (Go fmt %d), kernel-evaluable ===== -/

/-- Little-endian base-10 digits, fuel-structured so that the kernel can
evaluate it (the fuel argument strictly bounds the value). -/
def decDigitsCore : Nat → Nat → List Nat
  | 0, _ => []
  | fuel + 1, n => if n = 0 then [] else n % 10 :: decDigitsCore fuel (n / 10)

def decDigits (n : Nat) : List Nat := decDigitsCore n n

/-- Decimal rendering of a natural number, as produced by Go `fmt %d`. -/
def natToDecimal (n : Nat) : List Char :=
  if n = 0 then ['0'] else ((decDigits n).map Nat.digitChar).reverse

/- ===== internal/prompts/pr_tracking.go ===== -/

/-- Source struct `PRRecord` (tracked PR for prompt generation).
`CreatedAt` timestamps are modelled as naturals. -/
structure PRRecord where
  personaName : String
  prNumber : Nat
  prUrl : String
  createdAt : Nat
  synthesizedHash : List Char
deriving DecidableEq

/-- The persisted record store of the PR tracker (`loadPRRecords` result),
keyed by persona name. -/
def PRMap : Type := String → Option PRRecord

def emptyPRRecords : PRMap := fun _ => none

/-- External GitHub client as seen by the tracker: `none` = a client that
does not implement `GetPRStatus`; `some f` with `f n = none` = the status
query returned an error; `f n = some s` = status `s`. -/
def GhStatusClient : Type := Option (Nat → Option String)

/-- Source `GetContentHash`: length, first character and last character,
joined by dashes; `"empty"` for empty content. -/
def GetContentHash : List Char → List Char
  | [] => "empty".data
  | c :: cs =>
    natToDecimal ((c :: cs).length) ++ '-' :: c :: '-' :: [(c :: cs).getLast (List.cons_ne_nil c cs)]

/-- Source `TrackPR`: insert (or overwrite) the record for `personaName`.
The `now` parameter stands for `time.Now()`. -/
def TrackPR (records : PRMap) (personaName : String) (prNumber : Nat) (prUrl : String)
    (synthesizedHash : List Char) (now : Nat) : PRMap :=
  fun k =>
    if k = personaName then some ⟨personaName, prNumber, prUrl, now, synthesizedHash⟩
    else records k

/-- Source `RemovePR`: delete the record for `personaName`. -/
def RemovePR (records : PRMap) (personaName : String) : PRMap :=
  fun k => if k = personaName then none else records k

/-- Source `HasPendingPR`.  In the source every `true` return carries a
non-nil record and every `false` return a nil one, so the `(bool, record)`
pair is modelled as `Option PRRecord`; the function also returns the
possibly-updated record store (it removes entries of closed/merged PRs).
Its Go error result is always nil, so it is omitted. -/
def HasPendingPR (records : PRMap) (personaName : String) (client : GhStatusClient) :
    Option PRRecord × PRMap :=
  match records personaName with
  | none => (none, records)
  | some record =>
    match client with
    | some getPRStatus =>
      match getPRStatus record.prNumber with
      | none => (some record, records)
      | some status =>
        if status = "closed" ∨ status = "merged" then (none, RemovePR records personaName)
        else (some record, records)
    | none => (some record, records)

/-- Source `ShouldCreatePR`: decision, reason string, updated record store. -/
def ShouldCreatePR (records : PRMap) (personaName : String) (synthesizedContent : List Char)
    (client : GhStatusClient) : Bool × String × PRMap :=
  let currentHash := GetContentHash synthesizedContent
  match HasPendingPR records personaName client with
  | (none, records1) => (true, "no_pending_pr", records1)
  | (some record, records1) =>
    if record.synthesizedHash ≠ currentHash then (true, "content_changed", RemovePR records1 personaName)
    else (false, "pending_pr_" ++ toString record.prNumber, records1)

/-- A PR that the tracker will keep treating as pending: every status the
client can report for it is neither closed nor merged (this covers an open
status, a status-query error and a client without status support). -/
def prStillPending (client : GhStatusClient) (prNumber : Nat) : Prop :=
  ∀ getPRStatus, client = some getPRStatus →
    ∀ status, getPRStatus prNumber = some status → status ≠ "closed" ∧ status ≠ "merged"

/- ===== internal/multiprovider (generator.go) ===== -/

/-- Source struct `ProviderResponse`; `error = none` models a nil Go error. -/
structure ProviderResponse where
  provider : String
  content : String
  error : Option String
deriving DecidableEq

/-- The four external LLM clients of the `Generator` (claude takes the issue
content and template separately; the others take one prepared prompt). -/
structure ProviderClients where
  claude : String → String → String × Option String
  gemini : String → String × Option String
  grok : String → String × Option String
  gpt : String → String × Option String

/-- Full prompt prepared by `generateFromAllProviders` for gemini and grok. -/
def fullPromptOf (issueContent template : String) : String :=
  if template ≠ "" then issueContent ++ "\n\nUse this template as a guide:\n" ++ template
  else issueContent

/-- Shorter prompt prepared by `generateFromAllProviders` for gpt. -/
def shortPromptOf (issueContent : String) : String :=
  issueContent ++ "\n\nCreate a detailed user persona based on the above information. Include:\n1. Name and demographics\n2. Background and goals\n3. Pain points and challenges\n4. Technical proficiency\n5. Behavioral patterns\n6. Success criteria\n\nFormat as a well-structured Markdown document."

/-- The response one goroutine of `generateFromAllProviders` sends into the
channel, by provider registration index. -/
def providerCall (g : ProviderClients) (issueContent template : String) : Fin 4 → ProviderResponse
  | 0 =>
    let r := g.claude issueContent template
    ⟨"claude", r.1, r.2⟩
  | 1 =>
    let r := g.gemini (fullPromptOf issueContent template)
    ⟨"gemini", r.1, r.2⟩
  | 2 =>
    let r := g.grok (fullPromptOf issueContent template)
    ⟨"grok", r.1, r.2⟩
  | 3 =>
    let r := g.gpt (shortPromptOf issueContent)
    ⟨"gpt", r.1, r.2⟩

/-- Registration order of the four providers (claude, gemini, grok, gpt). -/
def registrationOrder : List (Fin 4) := [0, 1, 2, 3]

/-- Source `generateFromAllProviders`.  The collected `results` slice holds
the channel messages in arrival order, which is the goroutine completion
order `arrival`; a real execution has `arrival` a permutation of
`registrationOrder`.  When every provider failed the source returns a nil
slice and an error. -/
def generateFromAllProviders (g : ProviderClients) (issueContent template : String)
    (arrival : List (Fin 4)) : Except String (List ProviderResponse) :=
  let results := arrival.map (providerCall g issueContent template)
  let successCount := results.countP (fun r => r.error.isNone)
  if successCount = 0 then Except.error "all providers failed to generate personas"
  else Except.ok results

/-- Successful responses, as filtered at the top of `combinePersonasWithUser`. -/
def successfulOf (responses : List ProviderResponse) : List ProviderResponse :=
  responses.filter (fun r => r.error.isNone)

/-- The fallback loop of `combinePersonasWithUser`: scan for the response
with the strictly greatest content length, keeping the earliest on ties. -/
def bestOfScan (b : ProviderResponse) (l : List ProviderResponse) : ProviderResponse :=
  l.foldl (fun best r => if r.content.length > best.content.length then r else best) b

/-- Source `getDefaultCombinationPrompt`. -/
def getDefaultCombinationPrompt : String :=
  "You are tasked with creating the best possible persona by analyzing and combining the following persona profiles generated by different AI providers.\n\nStart your response immediately with the persona content using proper Markdown formatting. Do NOT include any preambles or meta-commentary.\n\nINPUT PERSONAS TO COMBINE:\n\n\x7b\x7bPERSONAS\x7d\x7d\n\nCreate a comprehensive, unified persona that represents the best synthesis of all the above profiles. Start directly with a persona title and content."

/-- The labelled persona sections built by `combinePersonasWithUser`
(numbered, skipping empty contents, with the optional user persona last). -/
def personaSections (successfulResponses : List ProviderResponse) (userPersona : String) :
    List String :=
  let nonEmpty := successfulResponses.filter (fun r => r.content ≠ "")
  let labeled := nonEmpty.enum.map (fun p =>
    "Persona " ++ toString (p.1 + 1) ++ ": " ++ p.2.provider ++ "\n<<<\n" ++ p.2.content ++ "\n>>>")
  if userPersona ≠ "" then
    labeled ++
      ["Persona " ++ toString (nonEmpty.length + 1) ++ ": User-Supplied\n<<<\n" ++ userPersona ++ "\n>>>"]
  else labeled

/-- Source `combinePersonasWithUser`.  The gemini synthesis call
`GenerateSynthesis` is the external parameter `synth`; the combination
prompt template (loaded from disk or the built-in default) is the parameter
`combinationPrompt`. -/
def combinePersonasWithUser (synth : String → Except String String) (combinationPrompt : String)
    (responses : List ProviderResponse) (userPersona : String) : Except String String :=
  match successfulOf responses with
  | [] => Except.error "no successful persona responses to combine"
  | first :: rest =>
    if rest.length = 0 ∧ userPersona = "" then Except.ok first.content
    else
      let prompt1 :=
        if userPersona ≠ "" then
          replaceOne combinationPrompt "INPUT PERSONAS TO COMBINE:"
            "INPUT PERSONAS TO COMBINE (including user-supplied version):"
        else combinationPrompt
      let finalPrompt :=
        replaceAll prompt1 "\x7b\x7bPERSONAS\x7d\x7d"
          (String.intercalate "\n\n" (personaSections (first :: rest) userPersona))
      match synth finalPrompt with
      | Except.ok combined => Except.ok combined
      | Except.error _ => Except.ok (bestOfScan first rest).content

/-- Greatest content length among a list of responses (specification-side
notion used to state the fallback property). -/
def maxContentLen (l : List ProviderResponse) : Nat :=
  l.foldr (fun r m => max r.content.length m) 0

/-- The first response whose content length attains the maximum
(specification-side notion: longest output, ties to the earliest). -/
def firstLongest (l : List ProviderResponse) : Option ProviderResponse :=
  l.find? (fun r => r.content.length == maxContentLen l)

/- ===== internal/pipeline/persona_name.go ===== -/

/-- Source struct `PersonaName`. -/
structure PersonaName where
  PrimaryName : List Char
  RealName : List Char
  FullName : List Char
deriving DecidableEq

/-- Anchored match of the Go regexp `^([^(]+)\s*\(([^)]+)\)\s*$` (pattern 1
of `ParsePersonaName`), returning the two capture groups.  Derivation from
leftmost-first regex semantics: `[^(]+` and `\s*` cannot cross a literal
`(`, so the matched `(` is the first one in the string and, the group being
greedy, group 1 is everything before it; likewise `[^)]+` cannot cross `)`,
so the matched `)` is the next `)` and group 2 is everything between; the
remainder must be whitespace for `\s*$`. -/
def pattern1Match (s : List Char) : Option (List Char × List Char) :=
  let before := s.takeWhile (fun c => c ≠ '(')
  match s.dropWhile (fun c => c ≠ '(') with
  | [] => none
  | _ :: after =>
    let mid := after.takeWhile (fun c => c ≠ ')')
    match after.dropWhile (fun c => c ≠ ')') with
    | [] => none
    | _ :: tail =>
      if before ≠ [] ∧ mid ≠ [] ∧ tail.all isGoSpace then some (before, mid) else none

/-- Attempt to match `\s+aka\s+(.+)$` at a fixed position (the tail after a
candidate lazy prefix), for pattern 2 of `ParsePersonaName`.  The characters
of the first `\s+` run are whitespace and hence not `a`, so `aka` must start
exactly at the end of the maximal whitespace run; the second `\s+` is greedy
but backtracks one character when everything to the end is whitespace, so
that `(.+)` still gets one (non-newline) character. -/
def pattern2TryTail (t : List Char) : Option (List Char) :=
  let ws := t.takeWhile isGoSpace
  let t1 := t.dropWhile isGoSpace
  if ws = [] then none
  else if ("aka".data).isPrefixOf t1 then
    let t2 := t1.drop 3
    let ws2 := t2.takeWhile isGoSpace
    let t3 := t2.dropWhile isGoSpace
    if ws2 = [] then none
    else if t3 = [] then
      if 2 ≤ ws2.length ∧ ws2.getLastD ' ' ≠ '\n' then some [ws2.getLastD ' '] else none
    else if t3.all (fun c => c ≠ '\n') then some t3
    else none
  else none

/-- Scan for the lazy `(.+?)` prefix of pattern 2, shortest first; `.` does
not match a newline, so the scan stops at the first newline. -/
def pattern2Go (pre : List Char) : List Char → Option (List Char × List Char)
  | [] => none
  | c :: rest =>
    if c = '\n' then none
    else
      match pattern2TryTail rest with
      | some g2 => some (pre ++ [c], g2)
      | none => pattern2Go (pre ++ [c]) rest

/-- Anchored match of the Go regexp `^(.+?)\s+aka\s+(.+)$` (pattern 2 of
`ParsePersonaName`). -/
def pattern2Match (s : List Char) : Option (List Char × List Char) :=
  pattern2Go [] s

/-- Source `ParsePersonaName`.  Error messages follow the source
(`"empty name"`). -/
def ParsePersonaName (input : List Char) : Except (List Char) PersonaName :=
  let input1 := trimSpace input
  if input1 = [] then Except.error ("empty name".data)
  else
    match pattern1Match input1 with
    | some (m1, m2) => Except.ok ⟨trimSpace m1, trimSpace m2, input1⟩
    | none =>
      match pattern2Match input1 with
      | some (m1, m2) =>
        let realName := trimSpace m1
        let aliasName := trimSpace m2
        Except.ok ⟨aliasName, realName, aliasName ++ " (".data ++ realName ++ ")".data⟩
      | none => Except.ok ⟨input1, input1, input1⟩

/-- Source method `HasAlias`. -/
def HasAlias (pn : PersonaName) : Bool :=
  pn.PrimaryName ≠ pn.RealName

/-- Source method `GetTrackingKey`. -/
def GetTrackingKey (pn : PersonaName) : List Char :=
  if HasAlias pn then pn.PrimaryName ++ "|".data ++ pn.RealName
  else pn.PrimaryName

/- ===== internal/pipeline (ParseUpdateRequest) ===== -/

/-- Source struct `UpdatePersonaRequest`. -/
structure UpdatePersonaRequest where
  PersonaName : List Char
  UserPersona : List Char
deriving DecidableEq

/-- Specification-side description of the body extraction of
`ParseUpdateRequest`: if the body contains `[[[` strictly before the last
`]]]`, the trimmed text strictly between the first `[[[` and the last
`]]]`; otherwise the whole trimmed body. -/
def updateBodyExtract (body : List Char) : List Char :=
  match strIndex ("[[[".data) body, strLastIndex ("]]]".data) body with
  | some si, some ei =>
    if ei > si then trimSpace ((body.drop (si + 3)).take (ei - (si + 3)))
    else trimSpace body
  | some _, none => trimSpace body
  | none, _ => trimSpace body

/-- Source `ParseUpdateRequest` on an issue with optional title and body
(`none` models a nil pointer; error strings follow the source, with the
quotes around Update Persona dropped). -/
def ParseUpdateRequest (title? body? : Option (List Char)) :
    Except (List Char) UpdatePersonaRequest :=
  match title? with
  | none => Except.error ("issue title is missing".data)
  | some title =>
    if ¬ (("update persona:".data).isPrefixOf (title.map Char.toLower)) then
      Except.error ("title must start with Update Persona:".data)
    else if title.dropWhile (fun c => c ≠ ':') = [] then
      Except.error ("invalid title format".data)
    else
      let personaName := trimSpace ((title.dropWhile (fun c => c ≠ ':')).drop 1)
      if personaName = [] then Except.error ("persona name cannot be empty".data)
      else
        match body? with
        | none => Except.error ("issue body must contain the updated persona".data)
        | some body =>
          if body = [] then Except.error ("issue body must contain the updated persona".data)
          else
            let startIndex := strIndex ("[[[".data) body
            let endIndex := strLastIndex ("]]]".data) body
            let userPersona :=
              match startIndex, endIndex with
              | some si, some ei =>
                if ei > si then trimSpace ((body.drop (si + 3)).take (ei - (si + 3)))
                else trimSpace body
              | some _, none => trimSpace body
              | none, _ => trimSpace body
            if userPersona = [] then Except.error ("no persona content provided".data)
            else Except.ok ⟨personaName, userPersona⟩

deriving instance DecidableEq for Except

/-- Value of a little-endian digit list (proof-side inverse of `decDigits`). -/
def ofDec : List Nat → Nat
  | [] => 0
  | d :: t => d + 10 * ofDec t

/-- Concrete fixture: every provider call fails. -/
def exClientsAllFail : ProviderClients :=
  ⟨fun _ _ => ("", some "boom"), fun _ => ("", some "boom"),
    fun _ => ("", some "boom"), fun _ => ("", some "boom")⟩

/-- Concrete fixture: the claude call fails, the other three succeed with
distinct contents. -/
def exClientsOneFail : ProviderClients :=
  ⟨fun _ _ => ("", some "boom"), fun _ => ("B", none),
    fun _ => ("C", none), fun _ => ("D", none)⟩

/-- Concrete fixture: all four calls succeed, with distinct contents of
equal length. -/
def exClientsTie : ProviderClients :=
  ⟨fun _ _ => ("AAAA", none), fun _ => ("BBBB", none),
    fun _ => ("CCCC", none), fun _ => ("DDDD", none)⟩

/- ===== Helper lemmas: decimal rendering ===== -/

theorem ofDec_decDigitsCore : ∀ (fuel n : Nat), n ≤ fuel → ofDec (decDigitsCore fuel n) = n := by
  intro fuel
  induction fuel with
  | zero =>
    intro n h
    have hn : n = 0 := Nat.le_zero.mp h
    subst hn
    rfl
  | succ a ih =>
    intro n h
    by_cases hn : n = 0
    · subst hn
      rfl
    · have hd : n / 10 < n := Nat.div_lt_self (Nat.pos_of_ne_zero hn) (by omega)
      simp only [decDigitsCore, if_neg hn, ofDec]
      rw [ih (n / 10) (by omega)]
      omega

theorem decDigits_inj {m n : Nat} (h : decDigits m = decDigits n) : m = n := by
  have hm := ofDec_decDigitsCore m m (Nat.le_refl m)
  have hn := ofDec_decDigitsCore n n (Nat.le_refl n)
  rw [decDigits] at h
  rw [← hm, ← hn]
  exact congrArg ofDec h

theorem decDigitsCore_lt_ten : ∀ (fuel n : Nat), ∀ d ∈ decDigitsCore fuel n, d < 10 := by
  intro fuel
  induction fuel with
  | zero =>
    intro n d hd
    simp [decDigitsCore] at hd
  | succ a ih =>
    intro n d hd
    by_cases hn : n = 0
    · subst hn
      simp [decDigitsCore] at hd
    · simp only [decDigitsCore, if_neg hn, List.mem_cons] at hd
      rcases hd with hd | hd
      · subst hd
        exact Nat.mod_lt _ (by omega)
      · exact ih _ d hd

theorem decDigitsCore_ne_nil {n : Nat} (hn : n ≠ 0) {fuel : Nat} (hf : n ≤ fuel) :
    decDigitsCore fuel n ≠ [] := by
  cases fuel with
  | zero => omega
  | succ a => simp [decDigitsCore, if_neg hn]

theorem digitChar_inj_lt :
    ∀ d1, d1 < 10 → ∀ d2, d2 < 10 → Nat.digitChar d1 = Nat.digitChar d2 → d1 = d2 := by
  decide

theorem digitChar_ne_e : ∀ d, d < 10 → Nat.digitChar d ≠ 'e' := by
  decide

theorem map_digitChar_inj :
    ∀ (l1 l2 : List Nat), (∀ d ∈ l1, d < 10) → (∀ d ∈ l2, d < 10) →
      l1.map Nat.digitChar = l2.map Nat.digitChar → l1 = l2 := by
  intro l1
  induction l1 with
  | nil =>
    intro l2 _ _ h
    cases l2 with
    | nil => rfl
    | cons b t2 => simp at h
  | cons a t ih =>
    intro l2 h1 h2 h
    cases l2 with
    | nil => simp at h
    | cons b t2 =>
      simp only [List.map_cons, List.cons.injEq] at h
      have hab : a = b :=
        digitChar_inj_lt a (h1 a (List.mem_cons_self a t)) b (h2 b (List.mem_cons_self b t2)) h.1
      have ht : t = t2 :=
        ih t2 (fun d hd => h1 d (List.mem_cons_of_mem a hd))
          (fun d hd => h2 d (List.mem_cons_of_mem b hd)) h.2
      rw [hab, ht]

theorem natToDecimal_inj {m n : Nat} (hm : m ≠ 0) (hn : n ≠ 0)
    (h : natToDecimal m = natToDecimal n) : m = n := by
  simp only [natToDecimal, if_neg hm, if_neg hn, List.reverse_inj] at h
  exact decDigits_inj
    (map_digitChar_inj _ _ (decDigitsCore_lt_ten m m) (decDigitsCore_lt_ten n n) h)

theorem natToDecimal_ne_nil {n : Nat} (hn : n ≠ 0) : natToDecimal n ≠ [] := by
  simp only [natToDecimal, if_neg hn, ne_eq, List.reverse_eq_nil_iff, List.map_eq_nil_iff]
  exact decDigitsCore_ne_nil hn (Nat.le_refl n)

theorem natToDecimal_mem {n : Nat} (hn : n ≠ 0) {ch : Char} (h : ch ∈ natToDecimal n) :
    ∃ d, d < 10 ∧ ch = Nat.digitChar d := by
  simp only [natToDecimal, if_neg hn, List.mem_reverse, List.mem_map] at h
  obtain ⟨d, hd, hch⟩ := h
  exact ⟨d, decDigitsCore_lt_ten n n d hd, hch.symm⟩

theorem hash_parts_inj {m n : Nat} {a1 b1 a2 b2 : Char} (hm : m ≠ 0) (hn : n ≠ 0)
    (h : natToDecimal m ++ '-' :: a1 :: '-' :: [b1] = natToDecimal n ++ '-' :: a2 :: '-' :: [b2]) :
    m = n ∧ a1 = a2 ∧ b1 = b2 := by
  have hlen : (natToDecimal m).length = (natToDecimal n).length := by
    have hl := congrArg List.length h
    simp only [List.length_append, List.length_cons] at hl
    omega
  obtain ⟨h1, h2⟩ := List.append_inj h hlen
  refine ⟨natToDecimal_inj hm hn h1, ?_, ?_⟩ <;> simp_all

theorem getContentHash_cons (c : Char) (cs : List Char) :
    GetContentHash (c :: cs) =
      natToDecimal (cs.length + 1) ++
        '-' :: c :: '-' :: [(c :: cs).getLast (List.cons_ne_nil c cs)] := rfl

theorem getContentHash_nil_ne_cons (b : Char) (bs : List Char) :
    GetContentHash [] ≠ GetContentHash (b :: bs) := by
  intro h
  have hb : bs.length + 1 ≠ 0 := by omega
  obtain ⟨ch, t, hct⟩ := List.exists_cons_of_ne_nil (natToDecimal_ne_nil hb)
  rw [show GetContentHash [] = ['e', 'm', 'p', 't', 'y'] from rfl,
    getContentHash_cons, hct] at h
  have hche : ch = 'e' := by
    simp only [List.cons_append, List.cons.injEq] at h
    exact h.1.symm
  have hmem : ch ∈ natToDecimal (bs.length + 1) := by
    rw [hct]
    exact List.mem_cons_self ch t
  obtain ⟨d, hd10, hchd⟩ := natToDecimal_mem hb hmem
  exact digitChar_ne_e d hd10 (by rw [← hchd, hche])

/-- C8: `GetContentHash` is a deterministic function of the content, and
contents of different length, or of equal nonzero length with different
first or different last characters, get different fingerprints. -/
theorem GetContentHash_discriminates : ∀ c1 c2 : List Char,
    (c1 = c2 → GetContentHash c1 = GetContentHash c2) ∧
    (c1.length ≠ c2.length → GetContentHash c1 ≠ GetContentHash c2) ∧
    (c1.length = c2.length → c1 ≠ [] →
      c1.head? ≠ c2.head? ∨ c1.getLast? ≠ c2.getLast? →
      GetContentHash c1 ≠ GetContentHash c2) := by
  intro c1 c2
  refine ⟨fun h => h ▸ rfl, ?_, ?_⟩
  · intro hlen
    cases c1 with
    | nil =>
      cases c2 with
      | nil => exact absurd rfl hlen
      | cons b bs => exact getContentHash_nil_ne_cons b bs
    | cons a as =>
      cases c2 with
      | nil => exact fun h => getContentHash_nil_ne_cons a as h.symm
      | cons b bs =>
        intro h
        rw [getContentHash_cons, getContentHash_cons] at h
        have := (hash_parts_inj (by omega) (by omega) h).1
        simp only [List.length_cons] at hlen
        omega
  · intro hlen hne hdisj h
    cases c1 with
    | nil => exact absurd rfl hne
    | cons a as =>
      cases c2 with
      | nil => simp at hlen
      | cons b bs =>
        rw [getContentHash_cons, getContentHash_cons] at h
        obtain ⟨-, hhead, hlast⟩ := hash_parts_inj (by omega) (by omega) h
        rcases hdisj with hd | hd
        · exact hd (by simp [hhead])
        · apply hd
          rw [List.getLast?_eq_getLast (a :: as) (List.cons_ne_nil a as),
            List.getLast?_eq_getLast (b :: bs) (List.cons_ne_nil b bs), hlast]

/-- Witness for C8 at concrete contents of different lengths and of equal
length with different boundary characters. -/
theorem GetContentHash_discriminates_witness :
    (("ab".data : List Char).length ≠ ("abc".data : List Char).length ∧
      GetContentHash "ab".data ≠ GetContentHash "abc".data) ∧
    (("xb".data : List Char).length = ("yb".data : List Char).length ∧
      ("xb".data : List Char) ≠ [] ∧
      (("xb".data : List Char).head? ≠ ("yb".data : List Char).head? ∨
        ("xb".data : List Char).getLast? ≠ ("yb".data : List Char).getLast?) ∧
      GetContentHash "xb".data ≠ GetContentHash "yb".data) :=
  ⟨⟨by decide, (GetContentHash_discriminates "ab".data "abc".data).2.1 (by decide)⟩,
    ⟨by decide, by decide, Or.inl (by decide),
      (GetContentHash_discriminates "xb".data "yb".data).2.2 (by decide) (by decide)
        (Or.inl (by decide))⟩⟩

/- ===== Helper lemmas: PR tracker ===== -/

theorem trackPR_lookup_self (records : PRMap) (name : String) (n : Nat) (url : String)
    (hash : List Char) (now : Nat) :
    TrackPR records name n url hash now name = some ⟨name, n, url, now, hash⟩ := by
  simp [TrackPR]

theorem hasPendingPR_of_pending (records : PRMap) (name : String) (client : GhStatusClient)
    (record : PRRecord) (hrec : records name = some record)
    (hpend : prStillPending client record.prNumber) :
    HasPendingPR records name client = (some record, records) := by
  unfold HasPendingPR
  rw [hrec]
  cases client with
  | none => rfl
  | some getPRStatus =>
    dsimp only
    cases hst : getPRStatus record.prNumber with
    | none => rfl
    | some status =>
      have h2 := hpend getPRStatus rfl status hst
      simp [h2.1, h2.2]

/-- C4: with no ledger record `ShouldCreatePR` answers true, and right after
`TrackPR` records the published PR, while that PR is still treated as
pending, a second `ShouldCreatePR` with the same content fingerprint answers
false (with the pending-PR reason), so no duplicate PR is created. -/
theorem ShouldCreatePR_dedup_idempotent :
    ∀ (records : PRMap) (name : String) (content : List Char) (client : GhStatusClient)
      (n : Nat) (url : String) (now : Nat),
      (records name = none → (ShouldCreatePR records name content client).1 = true) ∧
      (prStillPending client n →
        ShouldCreatePR (TrackPR records name n url (GetContentHash content) now) name content
            client =
          (false, "pending_pr_" ++ toString n,
            TrackPR records name n url (GetContentHash content) now)) := by
  intro records name content client n url now
  constructor
  · intro hnone
    unfold ShouldCreatePR HasPendingPR
    rw [hnone]
  · intro hpend
    unfold ShouldCreatePR
    rw [hasPendingPR_of_pending _ _ _ ⟨name, n, url, now, GetContentHash content⟩
      (trackPR_lookup_self records name n url (GetContentHash content) now) hpend]
    simp

/-- Witness for C4 at a concrete empty ledger, key, content and an open PR. -/
theorem ShouldCreatePR_dedup_idempotent_witness :
    (emptyPRRecords "marie_curie" = none ∧
      (ShouldCreatePR emptyPRRecords "marie_curie" "doc".data
          (some fun _ => some "open")).1 = true) ∧
    (prStillPending (some fun _ => some "open") 7 ∧
      ShouldCreatePR (TrackPR emptyPRRecords "marie_curie" 7 "url" (GetContentHash "doc".data) 0)
          "marie_curie" "doc".data (some fun _ => some "open") =
        (false, "pending_pr_" ++ toString 7,
          TrackPR emptyPRRecords "marie_curie" 7 "url" (GetContentHash "doc".data) 0)) := by
  have hpend : prStillPending (some fun _ => some "open") 7 := by
    intro f hf status hst
    cases hf
    cases hst
    exact ⟨by decide, by decide⟩
  exact ⟨⟨rfl, (ShouldCreatePR_dedup_idempotent emptyPRRecords "marie_curie" "doc".data
      (some fun _ => some "open") 7 "url" 0).1 rfl⟩,
    ⟨hpend, (ShouldCreatePR_dedup_idempotent emptyPRRecords "marie_curie" "doc".data
      (some fun _ => some "open") 7 "url" 0).2 hpend⟩⟩

/-- C5 counterexample: after recording fingerprint of "a" with the tracked
PR now closed, a call with changed content returns true, but with reason
"no_pending_pr" (the entry was already dropped by the pending check), not
"content_changed" as the claim states for the closed case. -/
theorem ShouldCreatePR_closed_reason_not_content_changed :
    GetContentHash "bb".data ≠ GetContentHash "a".data ∧
    (ShouldCreatePR (TrackPR emptyPRRecords "k" 5 "u" (GetContentHash "a".data) 0) "k" "bb".data
        (some fun _ => some "closed")).1 = true ∧
    (ShouldCreatePR (TrackPR emptyPRRecords "k" 5 "u" (GetContentHash "a".data) 0) "k" "bb".data
        (some fun _ => some "closed")).2.1 = "no_pending_pr" ∧
    ("no_pending_pr" : String) ≠ "content_changed" := by
  refine ⟨by decide, rfl, rfl, by decide⟩

/-- C5 as amended: after `TrackPR` with fingerprint `hash1`, a
`ShouldCreatePR` with content whose fingerprint differs returns true and
drops the stale entry in every case, but the reason is "content_changed"
only while the PR is still treated as pending; when the status query reports
closed or merged the reason is "no_pending_pr" (the pending check has
already released the entry). -/
theorem ShouldCreatePR_content_changed_supersedes :
    ∀ (records : PRMap) (name : String) (content2 : List Char) (client : GhStatusClient)
      (n : Nat) (url : String) (hash1 : List Char) (now : Nat),
      hash1 ≠ GetContentHash content2 →
      (prStillPending client n →
        ShouldCreatePR (TrackPR records name n url hash1 now) name content2 client =
          (true, "content_changed", RemovePR (TrackPR records name n url hash1 now) name)) ∧
      (∀ getPRStatus status, client = some getPRStatus → getPRStatus n = some status →
        (status = "closed" ∨ status = "merged") →
        ShouldCreatePR (TrackPR records name n url hash1 now) name content2 client =
          (true, "no_pending_pr", RemovePR (TrackPR records name n url hash1 now) name)) := by
  intro records name content2 client n url hash1 now hne
  constructor
  · intro hpend
    unfold ShouldCreatePR
    rw [hasPendingPR_of_pending _ _ _ ⟨name, n, url, now, hash1⟩
      (trackPR_lookup_self records name n url hash1 now) hpend]
    simp [hne]
  · intro getPRStatus status hcl hst hterm
    subst hcl
    unfold ShouldCreatePR HasPendingPR
    rw [trackPR_lookup_self records name n url hash1 now]
    simp only [hst]
    rcases hterm with h | h <;> simp [h]

/-- Witness for C5 as amended, at a concrete ledger with an open and with a
closed tracked PR. -/
theorem ShouldCreatePR_content_changed_supersedes_witness :
    (GetContentHash "a".data ≠ GetContentHash "bb".data ∧
      ShouldCreatePR (TrackPR emptyPRRecords "k" 5 "u" (GetContentHash "a".data) 0) "k" "bb".data
          (some fun _ => some "open") =
        (true, "content_changed",
          RemovePR (TrackPR emptyPRRecords "k" 5 "u" (GetContentHash "a".data) 0) "k")) ∧
    (GetContentHash "a".data ≠ GetContentHash "bb".data ∧
      ShouldCreatePR (TrackPR emptyPRRecords "k" 5 "u" (GetContentHash "a".data) 0) "k" "bb".data
          (some fun _ => some "merged") =
        (true, "no_pending_pr",
          RemovePR (TrackPR emptyPRRecords "k" 5 "u" (GetContentHash "a".data) 0) "k")) := by
  have hne : (GetContentHash "a".data : List Char) ≠ GetContentHash "bb".data := by decide
  have hpend : prStillPending (some fun _ => some "open") 5 := by
    intro f hf status hst
    cases hf
    cases hst
    exact ⟨by decide, by decide⟩
  exact ⟨⟨hne, (ShouldCreatePR_content_changed_supersedes emptyPRRecords "k" "bb".data
      (some fun _ => some "open") 5 "u" (GetContentHash "a".data) 0 hne).1 hpend⟩,
    ⟨hne, (ShouldCreatePR_content_changed_supersedes emptyPRRecords "k" "bb".data
      (some fun _ => some "merged") 5 "u" (GetContentHash "a".data) 0 hne).2
      (fun _ => some "merged") "merged" rfl rfl (Or.inr rfl)⟩⟩

/-- C9: when the PR status query errors, `HasPendingPR` reports the stored
record as still pending, so `ShouldCreatePR` with an unchanged fingerprint
refuses to publish a duplicate. -/
theorem HasPendingPR_status_error_assumed_pending :
    ∀ (records : PRMap) (name : String) (content : List Char)
      (getPRStatus : Nat → Option String) (record : PRRecord),
      records name = some record →
      getPRStatus record.prNumber = none →
      record.synthesizedHash = GetContentHash content →
      HasPendingPR records name (some getPRStatus) = (some record, records) ∧
      ShouldCreatePR records name content (some getPRStatus) =
        (false, "pending_pr_" ++ toString record.prNumber, records) := by
  intro records name content getPRStatus record hrec herr hhash
  have hpending : HasPendingPR records name (some getPRStatus) = (some record, records) := by
    unfold HasPendingPR
    rw [hrec]
    dsimp only
    rw [herr]
  refine ⟨hpending, ?_⟩
  unfold ShouldCreatePR
  rw [hpending]
  simp [hhash]

/-- Witness for C9 at a concrete ledger and an always-erroring status query. -/
theorem HasPendingPR_status_error_assumed_pending_witness :
    (TrackPR emptyPRRecords "k" 3 "u" (GetContentHash "x".data) 0) "k" =
        some ⟨"k", 3, "u", 0, GetContentHash "x".data⟩ ∧
    ((fun _ => none : Nat → Option String) 3 = none) ∧
    (⟨"k", 3, "u", 0, GetContentHash "x".data⟩ : PRRecord).synthesizedHash =
        GetContentHash "x".data ∧
    ShouldCreatePR (TrackPR emptyPRRecords "k" 3 "u" (GetContentHash "x".data) 0) "k" "x".data
        (some fun _ => none) =
      (false, "pending_pr_" ++ toString 3,
        TrackPR emptyPRRecords "k" 3 "u" (GetContentHash "x".data) 0) :=
  ⟨by decide, rfl, rfl,
    (HasPendingPR_status_error_assumed_pending
      (TrackPR emptyPRRecords "k" 3 "u" (GetContentHash "x".data) 0) "k" "x".data
      (fun _ => none) ⟨"k", 3, "u", 0, GetContentHash "x".data⟩ (by decide) rfl rfl).2⟩

/- ===== Helper lemmas: fan-out aggregator ===== -/

theorem countP_isNone_add_isSome (f : Fin 4 → ProviderResponse) :
    ∀ l : List (Fin 4),
      l.countP (fun i => (f i).error.isNone) + l.countP (fun i => (f i).error.isSome) =
        l.length := by
  intro l
  induction l with
  | nil => rfl
  | cons a t ih =>
    simp only [List.countP_cons, List.length_cons]
    cases h : (f a).error <;> simp [h] <;> omega

theorem generateFromAllProviders_successCount (g : ProviderClients)
    (issueContent template : String) (arrival : List (Fin 4))
    (hperm : arrival.Perm registrationOrder) :
    (arrival.map (providerCall g issueContent template)).countP (fun r => r.error.isNone) =
      registrationOrder.countP (fun i => (providerCall g issueContent template i).error.isNone) := by
  rw [List.countP_map]
  exact hperm.countP_eq _

/-- C1 counterexample: when every provider fails, `generateFromAllProviders`
does not return the full four-element result set; it returns an error
instead, so the claimed K = N case fails on the code. -/
theorem generateFromAllProviders_total_failure_errors :
    generateFromAllProviders exClientsAllFail "t" "" registrationOrder =
      Except.error "all providers failed to generate personas" := by
  decide

/-- C1 as amended: for an aggregation round in which K of the four providers
fail, if K < 4 then the full four-element outcome list is returned with
exactly 4 - K successes, in every completion order; if K = 4 the aggregator
returns an error instead of a result set. -/
theorem generateFromAllProviders_partial_failure_complete :
    ∀ (g : ProviderClients) (issueContent template : String) (arrival : List (Fin 4)),
      arrival.Perm registrationOrder →
      (registrationOrder.countP
          (fun i => (providerCall g issueContent template i).error.isSome) < 4 →
        ∃ l, generateFromAllProviders g issueContent template arrival = Except.ok l ∧
          l.length = 4 ∧
          l.countP (fun r => r.error.isNone) =
            4 - registrationOrder.countP
                  (fun i => (providerCall g issueContent template i).error.isSome)) ∧
      (registrationOrder.countP
          (fun i => (providerCall g issueContent template i).error.isSome) = 4 →
        generateFromAllProviders g issueContent template arrival =
          Except.error "all providers failed to generate personas") := by
  intro g issueContent template arrival hperm
  have hcount := generateFromAllProviders_successCount g issueContent template arrival hperm
  have hsum := countP_isNone_add_isSome (providerCall g issueContent template) registrationOrder
  have hlen4 : registrationOrder.length = 4 := rfl
  have hlen : arrival.length = 4 := by rw [hperm.length_eq]; rfl
  constructor
  · intro hK
    refine ⟨arrival.map (providerCall g issueContent template), ?_, by simp [hlen], ?_⟩
    · have hpos :
          (arrival.map (providerCall g issueContent template)).countP
              (fun r => r.error.isNone) ≠ 0 := by
        rw [hcount]
        omega
      unfold generateFromAllProviders
      dsimp only
      rw [if_neg hpos]
    · rw [hcount]
      omega
  · intro hK
    have hz :
        (arrival.map (providerCall g issueContent template)).countP
            (fun r => r.error.isNone) = 0 := by
      rw [hcount]
      omega
    unfold generateFromAllProviders
    dsimp only
    rw [if_pos hz]

/-- Witness for C1 as amended, at a completion order distinct from the
registration order with exactly one failing provider. -/
theorem generateFromAllProviders_partial_failure_complete_witness :
    ([2, 1, 0, 3] : List (Fin 4)).Perm registrationOrder ∧
    registrationOrder.countP
        (fun i => (providerCall exClientsOneFail "t" "" i).error.isSome) < 4 ∧
    ∃ l, generateFromAllProviders exClientsOneFail "t" "" [2, 1, 0, 3] = Except.ok l ∧
      l.length = 4 ∧
      l.countP (fun r => r.error.isNone) =
        4 - registrationOrder.countP
              (fun i => (providerCall exClientsOneFail "t" "" i).error.isSome) :=
  ⟨by decide, by decide,
    (generateFromAllProviders_partial_failure_complete exClientsOneFail "t" "" [2, 1, 0, 3]
      (by decide)).1 (by decide)⟩

/-- C2 counterexample: on identical inputs, two completion orders of the
same four successful provider calls yield different outcome lists; the list
for completion order gpt, grok, gemini, claude is in that completion order,
not in the registration order claude, gemini, grok, gpt. -/
theorem generateFromAllProviders_order_depends_on_completion :
    generateFromAllProviders exClientsTie "t" "" [3, 2, 1, 0] ≠
      generateFromAllProviders exClientsTie "t" "" registrationOrder ∧
    generateFromAllProviders exClientsTie "t" "" [3, 2, 1, 0] =
      Except.ok [⟨"gpt", "DDDD", none⟩, ⟨"grok", "CCCC", none⟩,
        ⟨"gemini", "BBBB", none⟩, ⟨"claude", "AAAA", none⟩] := by
  exact ⟨by decide, by decide⟩

/-- C2 as amended: a successful aggregation returns the outcomes in
completion order, hence as a permutation of the registration-order outcome
list: the multiset of outcomes is independent of completion order, but the
list order itself follows completion, not registration. -/
theorem generateFromAllProviders_ok_perm_registration :
    ∀ (g : ProviderClients) (issueContent template : String) (arrival : List (Fin 4)),
      arrival.Perm registrationOrder →
      ∀ l, generateFromAllProviders g issueContent template arrival = Except.ok l →
        l = arrival.map (providerCall g issueContent template) ∧
        l.Perm (registrationOrder.map (providerCall g issueContent template)) := by
  intro g issueContent template arrival hperm l hok
  unfold generateFromAllProviders at hok
  by_cases hz :
      (arrival.map (providerCall g issueContent template)).countP
          (fun r => r.error.isNone) = 0
  · simp [hz] at hok
  · simp only [hz, if_neg, if_false] at hok
    have hl : l = arrival.map (providerCall g issueContent template) := by
      simp at hok
      exact hok.symm
    exact ⟨hl, hl ▸ hperm.map (providerCall g issueContent template)⟩

/-- Witness for C2 as amended, at a concrete non-registration completion
order of four successful calls. -/
theorem generateFromAllProviders_ok_perm_registration_witness :
    ([1, 0, 2, 3] : List (Fin 4)).Perm registrationOrder ∧
    generateFromAllProviders exClientsTie "t" "" [1, 0, 2, 3] =
      Except.ok [⟨"gemini", "BBBB", none⟩, ⟨"claude", "AAAA", none⟩,
        ⟨"grok", "CCCC", none⟩, ⟨"gpt", "DDDD", none⟩] ∧
    ([⟨"gemini", "BBBB", none⟩, ⟨"claude", "AAAA", none⟩,
        ⟨"grok", "CCCC", none⟩, ⟨"gpt", "DDDD", none⟩] : List ProviderResponse).Perm
      (registrationOrder.map (providerCall exClientsTie "t" "")) :=
  ⟨by decide, by decide,
    (generateFromAllProviders_ok_perm_registration exClientsTie "t" "" [1, 0, 2, 3] (by decide)
      [⟨"gemini", "BBBB", none⟩, ⟨"claude", "AAAA", none⟩,
        ⟨"grok", "CCCC", none⟩, ⟨"gpt", "DDDD", none⟩] (by decide)).2⟩

/- ===== Helper lemmas: synthesis fallback ===== -/

theorem maxContentLen_cons (b : ProviderResponse) (l : List ProviderResponse) :
    maxContentLen (b :: l) = max b.content.length (maxContentLen l) := rfl

theorem bestOfScan_cons (b r : ProviderResponse) (t : List ProviderResponse) :
    bestOfScan b (r :: t) =
      bestOfScan (if r.content.length > b.content.length then r else b) t := rfl

theorem find?_cons_true {α : Type} (p : α → Bool) (a : α) (l : List α) (h : p a = true) :
    List.find? p (a :: l) = some a := by
  simp only [List.find?]
  rw [h]

theorem find?_cons_false {α : Type} (p : α → Bool) (a : α) (l : List α) (h : p a = false) :
    List.find? p (a :: l) = List.find? p l := by
  simp only [List.find?]
  rw [h]

theorem find_longest_scan :
    ∀ (l : List ProviderResponse) (b : ProviderResponse) (M : Nat),
      M = maxContentLen (b :: l) →
      (b :: l).find? (fun r => r.content.length == M) = some (bestOfScan b l) := by
  intro l
  induction l with
  | nil =>
    intro b M hM
    have h0 : maxContentLen ([] : List ProviderResponse) = 0 := rfl
    rw [maxContentLen_cons, h0] at hM
    have hpb : (b.content.length == M) = true := by
      rw [beq_iff_eq]
      omega
    rw [find?_cons_true (fun r => r.content.length == M) b [] hpb]
    rfl
  | cons r t ih =>
    intro b M hM
    rw [maxContentLen_cons, maxContentLen_cons] at hM
    rw [bestOfScan_cons]
    by_cases hrb : r.content.length > b.content.length
    · rw [if_pos hrb]
      have hbne : (b.content.length == M) = false := by
        rw [beq_eq_false_iff_ne]
        omega
      rw [find?_cons_false (fun x => x.content.length == M) b (r :: t) hbne]
      exact ih r M (by rw [maxContentLen_cons]; omega)
    · rw [if_neg hrb]
      have hM2 : M = maxContentLen (b :: t) := by
        rw [maxContentLen_cons]
        omega
      rw [← ih b M hM2]
      by_cases hpb : (b.content.length == M) = true
      · rw [find?_cons_true (fun x => x.content.length == M) b (r :: t) hpb,
          find?_cons_true (fun x => x.content.length == M) b t hpb]
      · have hbf : (b.content.length == M) = false := by
          rcases Bool.eq_false_or_eq_true (b.content.length == M) with h | h
          · exact absurd h hpb
          · exact h
        have hbne : b.content.length ≠ M := by
          rw [← beq_eq_false_iff_ne]
          exact hbf
        have hrne : (r.content.length == M) = false := by
          rw [beq_eq_false_iff_ne]
          omega
        rw [find?_cons_false (fun x => x.content.length == M) b (r :: t) hbf,
          find?_cons_false (fun x => x.content.length == M) r t hrne,
          find?_cons_false (fun x => x.content.length == M) b t hbf]

/-- C3 counterexample: with four successful equal-length outputs arriving in
the completion order gpt, grok, gemini, claude and a failing synthesis call,
the fallback returns the text of the provider that completed first (gpt),
not of the first-registered provider among the tied longest (claude). -/
theorem combinePersonas_fallback_tie_completion_order :
    generateFromAllProviders exClientsTie "t" "" [3, 2, 1, 0] =
      Except.ok [⟨"gpt", "DDDD", none⟩, ⟨"grok", "CCCC", none⟩,
        ⟨"gemini", "BBBB", none⟩, ⟨"claude", "AAAA", none⟩] ∧
    combinePersonasWithUser (fun _ => Except.error "boom") getDefaultCombinationPrompt
        [⟨"gpt", "DDDD", none⟩, ⟨"grok", "CCCC", none⟩,
          ⟨"gemini", "BBBB", none⟩, ⟨"claude", "AAAA", none⟩] "" =
      Except.ok "DDDD" ∧
    ("DDDD" : String) ≠ "AAAA" :=
  ⟨by decide, by decide, by decide⟩

/-- C3 as amended: if at least one outcome is successful and the synthesis
call fails, `combinePersonasWithUser` does not return an error: it returns
the text of the first successful outcome, in its input list order, attaining
the greatest content length (the input order is the completion order of the
aggregation, so ties go to the first-completed provider, not to the
first-registered one). -/
theorem combinePersonas_fallback_first_longest :
    ∀ (msg : String) (combinationPrompt : String) (responses : List ProviderResponse)
      (userPersona : String) (r : ProviderResponse),
      firstLongest (successfulOf responses) = some r →
      combinePersonasWithUser (fun _ => Except.error msg) combinationPrompt responses
          userPersona =
        Except.ok r.content := by
  intro msg combinationPrompt responses userPersona r hfind
  unfold combinePersonasWithUser
  cases hs : successfulOf responses with
  | nil =>
    rw [hs] at hfind
    simp [firstLongest] at hfind
  | cons first rest =>
    rw [hs] at hfind
    have hscan : r = bestOfScan first rest := by
      unfold firstLongest at hfind
      rw [find_longest_scan rest first (maxContentLen (first :: rest)) rfl] at hfind
      injection hfind with hfind
      exact hfind.symm
    dsimp only
    by_cases hone : rest.length = 0 ∧ userPersona = ""
    · rw [if_pos hone]
      have hrest : rest = [] := List.length_eq_zero.mp hone.1
      subst hrest
      rw [hscan]
      rfl
    · rw [if_neg hone]
      rw [hscan]

/-- Witness for C3 as amended, at a two-response list with one clear longest
successful output and a failing synthesis call. -/
theorem combinePersonas_fallback_first_longest_witness :
    firstLongest (successfulOf
        [⟨"claude", "xx", none⟩, ⟨"gemini", "yyy", none⟩]) =
      some ⟨"gemini", "yyy", none⟩ ∧
    combinePersonasWithUser (fun _ => Except.error "boom") getDefaultCombinationPrompt
        [⟨"claude", "xx", none⟩, ⟨"gemini", "yyy", none⟩] "" =
      Except.ok "yyy" :=
  ⟨by decide,
    combinePersonas_fallback_first_longest "boom" getDefaultCombinationPrompt
      [⟨"claude", "xx", none⟩, ⟨"gemini", "yyy", none⟩] "" ⟨"gemini", "yyy", none⟩ (by decide)⟩

/- ===== Name parsing (C6, C7) ===== -/

/-- C6 counterexample: a one-character name, whose length lies outside
[2,100], is parsed successfully; `ParsePersonaName` performs no length
validation at all, contradicting the claimed invalid-length failure. -/
theorem ParsePersonaName_accepts_length_one :
    ParsePersonaName "x".data = Except.ok ⟨"x".data, "x".data, "x".data⟩ := by
  decide

/-- C6 as amended: `ParsePersonaName` fails, with the empty-name error,
exactly when the input is empty after trimming; every other input parses
successfully, whatever its length (there is no length validation). -/
theorem ParsePersonaName_error_iff_blank :
    ∀ input : List Char,
      (trimSpace input = [] ∧ ParsePersonaName input = Except.error ("empty name".data)) ∨
      (trimSpace input ≠ [] ∧ ∃ pn, ParsePersonaName input = Except.ok pn) := by
  intro input
  by_cases h : trimSpace input = []
  · left
    refine ⟨h, ?_⟩
    unfold ParsePersonaName
    dsimp only
    rw [if_pos h]
  · right
    refine ⟨h, ?_⟩
    unfold ParsePersonaName
    dsimp only
    rw [if_neg h]
    cases hp1 : pattern1Match (trimSpace input) with
    | some p =>
      obtain ⟨m1, m2⟩ := p
      exact ⟨_, rfl⟩
    | none =>
      cases hp2 : pattern2Match (trimSpace input) with
      | some p =>
        obtain ⟨m1, m2⟩ := p
        exact ⟨_, rfl⟩
      | none => exact ⟨_, rfl⟩

/-- Witness for C6 as amended at a nonblank input. -/
theorem ParsePersonaName_error_iff_blank_witness :
    trimSpace "ab".data ≠ [] ∧ ∃ pn, ParsePersonaName "ab".data = Except.ok pn := by
  rcases ParsePersonaName_error_iff_blank "ab".data with ⟨h1, _⟩ | ⟨h1, h2⟩
  · exact absurd h1 (by decide)
  · exact ⟨h1, h2⟩

/-- C7 counterexample: with alias A = "Z" (nonempty, no parenthesis) and
real name R = "x aka y" (nonempty), parsing "A (R)" and "R aka A" yields
structurally different records with different tracking keys, because the
lazy aka pattern splits R itself at its first " aka ". -/
theorem ParsePersonaName_alias_aka_keys_differ :
    ParsePersonaName "Z (x aka y)".data =
      Except.ok ⟨"Z".data, "x aka y".data, "Z (x aka y)".data⟩ ∧
    ParsePersonaName "x aka y aka Z".data =
      Except.ok ⟨"y aka Z".data, "x".data, "y aka Z (x)".data⟩ ∧
    (⟨"Z".data, "x aka y".data, "Z (x aka y)".data⟩ : PersonaName) ≠
      ⟨"y aka Z".data, "x".data, "y aka Z (x)".data⟩ ∧
    GetTrackingKey ⟨"Z".data, "x aka y".data, "Z (x aka y)".data⟩ ≠
      GetTrackingKey ⟨"y aka Z".data, "x".data, "y aka Z (x)".data⟩ :=
  ⟨by decide, by decide, by decide, by decide⟩

/-- C7 as amended: on the concrete alias pair of the specification, both the
"MrBeast (Jimmy Donaldson)" form and the "Jimmy Donaldson aka MrBeast" form
parse to the same record, whose tracking key is the pair joined by the bar
separator; and a whitespace-only input fails with the empty-name error. -/
theorem ParsePersonaName_mrbeast_normalization :
    ParsePersonaName "MrBeast (Jimmy Donaldson)".data =
      Except.ok ⟨"MrBeast".data, "Jimmy Donaldson".data, "MrBeast (Jimmy Donaldson)".data⟩ ∧
    ParsePersonaName "Jimmy Donaldson aka MrBeast".data =
      Except.ok ⟨"MrBeast".data, "Jimmy Donaldson".data, "MrBeast (Jimmy Donaldson)".data⟩ ∧
    GetTrackingKey ⟨"MrBeast".data, "Jimmy Donaldson".data, "MrBeast (Jimmy Donaldson)".data⟩ =
      "MrBeast|Jimmy Donaldson".data ∧
    ParsePersonaName "  ".data = Except.error ("empty name".data) :=
  ⟨by decide, by decide, by decide, by decide⟩

/- ===== Update requests (C10) ===== -/

theorem ParseUpdateRequest_ok_shape (title body : List Char) (req : UpdatePersonaRequest)
    (h : ParseUpdateRequest (some title) (some body) = Except.ok req) :
    req.UserPersona = updateBodyExtract body ∧ req.UserPersona ≠ [] := by
  unfold ParseUpdateRequest at h
  dsimp only at h
  split at h
  · simp at h
  · split at h
    · simp at h
    · split at h
      · simp at h
      · split at h
        · simp at h
        · split at h
          · simp at h
          · injection h with h
            subst h
            exact ⟨rfl, by assumption⟩

theorem ParseUpdateRequest_some_none_ne_ok (title : List Char) (req : UpdatePersonaRequest) :
    ParseUpdateRequest (some title) none ≠ Except.ok req := by
  intro h
  unfold ParseUpdateRequest at h
  dsimp only at h
  split at h
  · simp at h
  · split at h
    · simp at h
    · split at h
      · simp at h
      · simp at h

/-- C10: every update request accepted by `ParseUpdateRequest` carries a
nonempty `UserPersona`, equal to the trimmed text strictly between the first
triple open bracket and the last triple close bracket when the former occurs
strictly before the latter, and to the whole trimmed body otherwise; and
whenever the body is absent or that extraction is empty, `ParseUpdateRequest`
returns an error instead of a request. -/
theorem ParseUpdateRequest_userPersona_nonempty :
    ∀ (title? body? : Option (List Char)),
      (∀ req, ParseUpdateRequest title? body? = Except.ok req →
        ∃ b, body? = some b ∧ req.UserPersona = updateBodyExtract b ∧ req.UserPersona ≠ []) ∧
      (body? = none → ∀ req, ParseUpdateRequest title? body? ≠ Except.ok req) ∧
      (∀ b, body? = some b → updateBodyExtract b = [] →
        ∀ req, ParseUpdateRequest title? body? ≠ Except.ok req) := by
  intro title? body?
  refine ⟨?_, ?_, ?_⟩
  · intro req h
    cases title? with
    | none => simp [ParseUpdateRequest] at h
    | some title =>
      cases body? with
      | none => exact absurd h (ParseUpdateRequest_some_none_ne_ok title req)
      | some body =>
        obtain ⟨h1, h2⟩ := ParseUpdateRequest_ok_shape title body req h
        exact ⟨body, rfl, h1, h2⟩
  · intro hb req h
    subst hb
    cases title? with
    | none => simp [ParseUpdateRequest] at h
    | some title => exact ParseUpdateRequest_some_none_ne_ok title req h
  · intro b hb hempty req h
    subst hb
    cases title? with
    | none => simp [ParseUpdateRequest] at h
    | some title =>
      obtain ⟨h1, h2⟩ := ParseUpdateRequest_ok_shape title b req h
      exact h2 (h1.trans hempty)

/-- Witness for C10 at a concrete accepted update request whose body has
marker-delimited content. -/
theorem ParseUpdateRequest_userPersona_nonempty_witness :
    ∃ b, (some "hello [[[ Body ]]] tail".data : Option (List Char)) = some b ∧
      (⟨"Marie".data, "Body".data⟩ : UpdatePersonaRequest).UserPersona = updateBodyExtract b ∧
      (⟨"Marie".data, "Body".data⟩ : UpdatePersonaRequest).UserPersona ≠ [] :=
  (ParseUpdateRequest_userPersona_nonempty (some "Update Persona: Marie".data)
    (some "hello [[[ Body ]]] tail".data)).1 ⟨"Marie".data, "Body".data⟩ (by decide)
